import Mathlib

/-!
# grpcServer: ingress pipeline and server lifecycle

A shallow embedding of `internal/grpcServer/grpcServer.go`.

* The process environment is an explicit value (`Env`); `os.Getenv` is a lookup in it.
* A response writer handle `w` is a reference (a number); the state behind every
  handle lives in a `World`, which handlers pass along explicitly.
* `context.Context` values are trees built by the constructors of the Go `context`
  package; whether a cancellation source has fired is given by a separate table, so
  that statements about a derived context hold at every moment.
* `Run` starts a goroutine and then waits in a `select`; it is a step function over
  scheduler and outside-world events.
-/

namespace grpcServer

/-! ## Go library values used by the package -/

/-- Go `error` values that occur in the package. `none : Option GoError` is `nil`. -/
inductive GoError where
  | Canceled
  | DeadlineExceeded
  | ErrServerClosed
  | other (msg : String)
  deriving DecidableEq, Repr

/-- The method `Error()` of an `error`. -/
def GoError.Error : GoError → String
  | .Canceled => "context canceled"
  | .DeadlineExceeded => "context deadline exceeded"
  | .ErrServerClosed => "http: Server closed"
  | .other msg => msg

/-- The process environment: a variable is unset (`none`) or has a value. -/
abbrev Env := String → Option String

/-- The function `os.Getenv`: the value of the variable, the empty string when unset. -/
def Getenv (env : Env) (key : String) : String :=
  (env key).getD ""

/-- Modelled from the spec: package `keys` is not among the sources. `HttpRequestKey` is
`keys.HttpRequestKey`, the fixed, process-wide key that identifies the current transport
handles; `other n` stands for every other key a context may hold. -/
inductive Key where
  | HttpRequestKey
  | other (n : Nat)
  deriving DecidableEq, Repr

mutual
/-- A `context.Context`, as built by package `context`. The numbers in `withCancel` and
`withDeadline` name the cancellation source created by that call. -/
inductive Context where
  | background
  | withCancel (parent : Context) (id : Nat)
  | withDeadline (parent : Context) (id : Nat) (deadline : Nat)
  | withValue (parent : Context) (key : Key) (val : Val)
/-- Modelled from the spec: package `keys` is not among the sources.
`HttpRequestResponse` is `keys.HttpRequestResponse`, the pair of the request handle and
the response writer handle of one call (a `*http.Request` is represented by the request
it points to, a response writer by its reference); `other n` stands for every other
value a context may hold. -/
inductive Val where
  | HttpRequestResponse (Request : Request) (Response : Nat)
  | other (n : Nat)
/-- The fields of `http.Request` that the package reads or copies. -/
inductive Request where
  | mk (Method : String) (URL : String) (Body : String) (ctx : Context)
end

/-- The field `Method` of a request. -/
def Request.Method : Request → String
  | .mk m _ _ _ => m

/-- The field `URL` of a request. -/
def Request.URL : Request → String
  | .mk _ u _ _ => u

/-- The field `Body` of a request. -/
def Request.Body : Request → String
  | .mk _ _ b _ => b

/-- The method `r.Context()`. -/
def Request.Context : Request → Context
  | .mk _ _ _ c => c

/-- The method `r.WithContext(ctx)`: a copy of the request with its context replaced. -/
def Request.WithContext : Request → grpcServer.Context → Request
  | .mk m u b _, ctx => .mk m u b ctx

/-- The method `ctx.Value(key)`: the innermost value stored under the key. -/
def Context.Value : Context → Key → Option Val
  | .background, _ => none
  | .withCancel parent _, k => parent.Value k
  | .withDeadline parent _ _, k => parent.Value k
  | .withValue parent key val, k => if key = k then some val else parent.Value k

/-- The method `ctx.Deadline()`: the earliest deadline on the path to the root. -/
def Context.Deadline : Context → Option Nat
  | .background => none
  | .withCancel parent _ => parent.Deadline
  | .withDeadline parent _ d =>
    match parent.Deadline with
    | some pd => some (min pd d)
    | none => some d
  | .withValue parent _ _ => parent.Deadline

/-- The method `ctx.Err()`, given which cancellation sources have fired and why. The
table does not record the order of firing: when a source and one of its ancestors have
both fired, the reason of the ancestor is reported. -/
def Context.Err (fired : Nat → Option GoError) : Context → Option GoError
  | .background => none
  | .withCancel parent id =>
    match parent.Err fired with
    | some e => some e
    | none => fired id
  | .withDeadline parent id _ =>
    match parent.Err fired with
    | some e => some e
    | none => fired id
  | .withValue parent _ _ => parent.Err fired

/-- Whether the channel `ctx.Done()` is closed. -/
def Context.Done (fired : Nat → Option GoError) (ctx : Context) : Bool :=
  (ctx.Err fired).isSome

/-- An `http.Header`: a map from header names to lists of values. -/
structure Header where
  vals : String → Option (List String)

/-- The method `h.Set(key, value)`: the entry of the key becomes the single value. The
four keys the package sets are already in canonical MIME form, so canonicalisation of
the key leaves them as written. -/
def Header.Set (h : Header) (key value : String) : Header :=
  ⟨Function.update h.vals key (some [value])⟩

/-- The method `h.Get(key)`: the first value of the key, the empty string when absent. -/
def Header.Get (h : Header) (key : String) : String :=
  match h.vals key with
  | some (v :: _) => v
  | _ => ""

/-- The state behind an `http.ResponseWriter` handle: the header map, the status given
to an explicit `WriteHeader` (if any) and the chunks given to `Write`. -/
structure ResponseWriter where
  header : Header
  status : Option Nat
  body : List String

/-- The mutable state a handler can touch: the state behind every response writer
handle, and the state `ext` owned by the downstream collaborators. -/
structure World (σ : Type) where
  writers : Nat → ResponseWriter
  ext : σ

/-- An `http.Handler`: `ServeHTTP(w, r)` as a transformer of the world. -/
abbrev Handler (σ : Type) := Nat → Request → World σ → World σ

/-- The statement `w.Header().Set(key, value)`. -/
def headerSet {σ : Type} (w : Nat) (key value : String) (st : World σ) : World σ :=
  let rw := st.writers w
  let rw := { rw with header := rw.header.Set key value }
  { st with writers := Function.update st.writers w rw }

/-- The closure `corsHandler` of `New`. It captures `publicUrl` and the RPC `handler`;
`env` is the process environment at the time the request is served. -/
def corsHandler {σ : Type} (publicUrl : String) (handler : Handler σ) (env : Env) :
    Handler σ := fun w r st =>
  let st :=
    if publicUrl ≠ "" then
      headerSet w "Access-Control-Allow-Origin" publicUrl st
    else
      headerSet w "Access-Control-Allow-Origin" (Getenv env "CLIENT_URL") st
  let st := headerSet w "Access-Control-Allow-Methods" "GET, POST, OPTIONS" st
  let st := headerSet w "Access-Control-Allow-Headers"
    "Content-Type, Authorization, Set-Cookie, connect-protocol-version" st
  let st := headerSet w "Access-Control-Allow-Credentials" "true" st
  if r.Method = "OPTIONS" then
    st
  else
    let ctx := Context.withValue r.Context Key.HttpRequestKey (Val.HttpRequestResponse r w)
    handler w (r.WithContext ctx) st

/-- A `*slog.Logger` that is not nil, named by the sink it writes to. -/
structure Logger where
  sink : Nat
  deriving DecidableEq, Repr

/-- One record written to a diagnostic sink. -/
structure LogEntry where
  sink : Nat
  level : String
  msg : String
  attrs : List (String × String)
  deriving DecidableEq, Repr

/-- The fields of `http.Server` the package sets, and the contexts of the `Shutdown`
calls made on it so far. Its `Handler` is the h2c wrapper around the multiplexer of the
handle. -/
structure Server where
  Addr : String
  shutdownCalls : List Context

/-- Whether the server has been asked to shut down (`srv.shuttingDown()`). -/
def Server.inShutdown (srv : Server) : Bool :=
  !srv.shutdownCalls.isEmpty

/-- The method `srv.Shutdown(ctx)`: the server is marked as shutting down and its
listeners are closed; `outcome` is the error the library returns, which depends on the
requests in flight and on the deadline of `ctx`. -/
def Server.Shutdown (srv : Server) (ctx : Context) (outcome : Option GoError) :
    Option GoError × Server :=
  (outcome, { srv with shutdownCalls := srv.shutdownCalls ++ [ctx] })

/-- The constant `time.Second`, in nanoseconds (the unit of `time.Duration`). -/
def Second : Nat := 1000000000

/-- The struct `GrpcServer`. A nil `logger` is `none`. The multiplexer is the list of
its registrations. -/
structure GrpcServer (σ : Type) where
  mux : List (String × (Env → Handler σ))
  path : String
  corsHandler : Env → Handler σ
  srv : Server
  shutDownTimeout : Nat
  logger : Option Logger

/-- What `New` returns and prints. -/
structure NewResult (σ : Type) where
  server : GrpcServer σ
  err : Option GoError
  stdout : List String

/-- The function `New`. `env` is the process environment when `New` runs.
`newAuthServiceHandler erdTreeUrl` stands for the mount path and the RPC handler that
`authv1connect.NewAuthServiceHandler(auth.NewExternalClient(erdTreeUrl, ...), interceptors)`
returns; that generated code and the collaborators it wraps are outside the package. -/
def New {σ : Type} (env : Env) (logger : Option Logger)
    (newAuthServiceHandler : String → String × Handler σ) : NewResult σ :=
  let publicUrl := Getenv env "PUBLIC_URL"
  let erdTreeUrl := Getenv env "ERDTREE_URL"
  let port := Getenv env "PORT"
  let erdTreeUrl := if erdTreeUrl = "" then Getenv env "ERDTREE_LOCAL_URL" else erdTreeUrl
  let mux : List (String × (Env → Handler σ)) := []
  let (path, handler) := newAuthServiceHandler erdTreeUrl
  let srv : Server := { Addr := "0.0.0.0:" ++ port, shutdownCalls := [] }
  let shutDownTimeout := 10 * Second
  { server :=
      { mux := mux
        path := path
        corsHandler := corsHandler publicUrl handler
        srv := srv
        shutDownTimeout := shutDownTimeout
        logger := logger }
    err := none
    stdout := ["SERVING AT:  0.0.0.0:" ++ port] }

/-- A handler instrumented to record its calls: before running `h` it appends the
handle and request it was called with, and the state of that writer at that moment. -/
def recordCalls {σ : Type} (h : Handler σ) :
    Handler (List (Nat × Request × ResponseWriter) × σ) := fun w r st =>
  let inner := h w r { writers := st.writers, ext := st.ext.2 }
  { writers := inner.writers, ext := (st.ext.1 ++ [(w, r, st.writers w)], inner.ext) }

/-! ## The interceptor -/

/-- A `connect.AnyRequest`, by its procedure name and payload. -/
structure AnyRequest where
  procedure : String
  payload : String
  deriving DecidableEq, Repr

/-- A `connect.AnyResponse`, by its payload. -/
structure AnyResponse where
  payload : String
  deriving DecidableEq, Repr

/-- A `connect.UnaryFunc`: it returns a response (nil is `none`) and an error (nil is
`none`), and may change the state `σ` of whatever it calls into. -/
abbrev UnaryFunc (σ : Type) :=
  Context → AnyRequest → σ → (Option AnyResponse × Option GoError) × σ

/-- A `connect.UnaryInterceptorFunc`. -/
abbrev UnaryInterceptorFunc (σ : Type) := UnaryFunc σ → UnaryFunc σ

/-- The function `NewAuthInterceptor`. -/
def NewAuthInterceptor {σ : Type} : UnaryInterceptorFunc σ :=
  fun next => fun ctx req s => next ctx req s

/-- A unary function instrumented to record the context and request of each call. -/
def recordUnary {σ : Type} (next : UnaryFunc σ) :
    UnaryFunc (List (Context × AnyRequest) × σ) := fun ctx req s =>
  let out := next ctx req s.2
  (out.1, (s.1 ++ [(ctx, req)], out.2))

/-! ## Stop -/

/-- The state `Stop` leaves behind: the handle (its `srv` is mutated by `Shutdown`), the
records written to the diagnostic sinks, the cancel functions called, and whether the
call ended in a panic instead of returning. -/
structure StopResult (σ : Type) where
  server : GrpcServer σ
  log : List LogEntry
  cancelled : List Nat
  panicked : Bool

/-- The method `Stop`. `now` is the clock reading when the timeout context is made,
`cancelId` names the cancellation source `context.WithTimeout` creates, and `outcome`
is what the library's `Shutdown` returns. Calling `Error` on a nil logger dereferences
a nil pointer; the deferred `cancel()` runs on every path. -/
def Stop {σ : Type} (server : GrpcServer σ) (now cancelId : Nat) (outcome : Option GoError)
    (log : List LogEntry) : StopResult σ :=
  let ctx := Context.withDeadline Context.background cancelId (now + server.shutDownTimeout)
  let (err, srv) := server.srv.Shutdown ctx outcome
  let server := { server with srv := srv }
  match err with
  | some e =>
    match server.logger with
    | some logger =>
      { server := server
        log := log ++ [{ sink := logger.sink, level := "ERROR",
                         msg := "failed to shutdown HTTP Server",
                         attrs := [("error", e.Error)] }]
        cancelled := [cancelId]
        panicked := false }
    | none => { server := server, log := log, cancelled := [cancelId], panicked := true }
  | none => { server := server, log := log, cancelled := [cancelId], panicked := false }

/-! ## Run -/

/-- Where the goroutine that called `Run` stands: before the `go` statement, waiting in
the `select`, or returned with a result. -/
inductive MainPc where
  | entry
  | select
  | returned (err : Option GoError)
  deriving DecidableEq, Repr

/-- Where the goroutine started by `Run` stands: not started, before `mux.Handle`,
before `fmt.Println`, before `ListenAndServe`, inside `ListenAndServe` with the accept
loop running, or finished (with the value of `ListenAndServe`, which the source
discards). -/
inductive WorkerPc where
  | notStarted
  | handle
  | println
  | listenAndServe
  | serving
  | exited (discarded : Option GoError)
  deriving DecidableEq, Repr

/-- The state of one call of `Run`. `ctxErr` is `ctx.Err()` of the context given to
`Run` (`none` while `ctx.Done()` is open). `errResult` lists the values offered by
goroutines blocked in a send on the unbuffered channel `errResult`. `crashed` records
that a panic has ended the process. -/
structure RunState (σ : Type) where
  server : GrpcServer σ
  ctxErr : Option GoError
  main : MainPc
  worker : WorkerPc
  errResult : List (Option GoError)
  stdout : List String
  log : List LogEntry
  crashed : Bool

/-- What can happen next: the scheduler runs the caller of `Run` (`pick` resolves a
`select` with two ready cases) or the started goroutine; the context given to `Run` is
cancelled for a reason; the listener or accept loop fails with an error; another
goroutine calls `Stop`. -/
inductive Event where
  | main (pick : Bool)
  | worker
  | cancel (reason : GoError)
  | serveFails (err : GoError)
  | stop (now cancelId : Nat) (outcome : Option GoError)
  deriving DecidableEq, Repr

/-- Whether the event is a call of `Stop`. -/
def Event.isStop : Event → Bool
  | .stop _ _ _ => true
  | _ => false

/-- Whether the event is a cancellation of the context given to `Run`. -/
def Event.isCancel : Event → Bool
  | .cancel _ => true
  | _ => false

/-- Whether the event is a failure of the listener or accept loop. -/
def Event.isServeFails : Event → Bool
  | .serveFails _ => true
  | _ => false

/-- Whether the event schedules the caller of `Run`. -/
def Event.isMain : Event → Bool
  | .main _ => true
  | _ => false

/-- The state when `Run(ctx)` is called on a handle. -/
def runInit {σ : Type} (server : GrpcServer σ) (ctxErr : Option GoError)
    (log : List LogEntry) : RunState σ :=
  { server := server, ctxErr := ctxErr, main := .entry, worker := .notStarted,
    errResult := [], stdout := [], log := log, crashed := false }

/-- One step of the caller of `Run`: the `go` statement, then the `select`. -/
def stepMain {σ : Type} (s : RunState σ) (pick : Bool) : RunState σ :=
  match s.main with
  | .entry => { s with main := .select, worker := .handle }
  | .select =>
    match s.ctxErr, s.errResult with
    | some e, [] => { s with main := .returned (some e) }
    | none, v :: rest => { s with main := .returned v, errResult := rest }
    | some e, v :: rest =>
      if pick then { s with main := .returned (some e) }
      else { s with main := .returned v, errResult := rest }
    | none, [] => s
  | .returned _ => s

/-- Whether `mux.Handle(pattern, handler)` panics: `http.ServeMux` refuses the empty
pattern and a pattern that is already registered (as happens when `Run` is called a
second time on the same handle). Patterns are plain paths, as the mount path of the
generated service is. -/
def handlePanics {σ : Type} (mux : List (String × (Env → Handler σ))) (pattern : String) :
    Bool :=
  pattern == "" || (mux.map (fun reg => reg.1)).contains pattern

/-- One statement of the goroutine started by `Run`: `mux.Handle` adds the registration
of `path`, or panics, which ends the process; `fmt.Println` prints; `ListenAndServe`
returns `ErrServerClosed` at once on a server already asked to shut down and otherwise
enters the accept loop, where it blocks. The value of `ListenAndServe` is not sent on
`errResult`: the goroutine ends with it. -/
def stepWorker {σ : Type} (s : RunState σ) : RunState σ :=
  match s.worker with
  | .notStarted => s
  | .handle =>
    if handlePanics s.server.mux s.server.path then { s with crashed := true }
    else
      { s with
        server :=
          { s.server with mux := s.server.mux ++ [(s.server.path, s.server.corsHandler)] }
        worker := .println }
  | .println => { s with stdout := s.stdout ++ ["LISTEN AND SERVE"], worker := .listenAndServe }
  | .listenAndServe =>
    if s.server.srv.inShutdown then { s with worker := .exited (some .ErrServerClosed) }
    else { s with worker := .serving }
  | .serving => s
  | .exited _ => s

/-- One event applied to a state. Nothing happens after a crash. -/
def step {σ : Type} (s : RunState σ) (ev : Event) : RunState σ :=
  if s.crashed then s
  else
    match ev with
    | .main pick => stepMain s pick
    | .worker => stepWorker s
    | .cancel reason =>
      match s.ctxErr with
      | none => { s with ctxErr := some reason }
      | some _ => s
    | .serveFails err =>
      match s.worker with
      | .serving => { s with worker := .exited (some err) }
      | _ => s
    | .stop now cancelId outcome =>
      let r := Stop s.server now cancelId outcome s.log
      { s with
        server := r.server
        log := r.log
        crashed := r.panicked
        worker := match s.worker with
          | .serving => .exited (some .ErrServerClosed)
          | pc => pc }

/-- The method `Run`: the state reached from the call after the given events. -/
def Run {σ : Type} (server : GrpcServer σ) (ctxErr : Option GoError) (log : List LogEntry)
    (events : List Event) : RunState σ :=
  events.foldl step (runInit server ctxErr log)

/-- The result of `Run`, once it has returned. -/
def RunState.result {σ : Type} (s : RunState σ) : Option (Option GoError) :=
  match s.main with
  | .returned err => some err
  | _ => none

/-- Whether the event schedules the goroutine started by `Run`. -/
def Event.isWorker : Event → Bool
  | .worker => true
  | _ => false

/-- How many steps the caller of `Run` is away from having returned. -/
def MainPc.rank : MainPc → Nat
  | .entry => 2
  | .select => 1
  | .returned _ => 0

/-- How many statements a live goroutine is away from the accept loop. -/
def WorkerPc.rank : WorkerPc → Nat
  | .handle => 3
  | .println => 2
  | .listenAndServe => 1
  | _ => 0

/-- Whether the goroutine started by `Run` has been started and has not finished. -/
def WorkerPc.alive : WorkerPc → Bool
  | .handle => true
  | .println => true
  | .listenAndServe => true
  | .serving => true
  | _ => false

/-- What holds in every state of a call of `Run`: no goroutine is ever blocked in a
send on `errResult`; a result already returned is the `Err` of the context, and not
nil; the goroutine has been started exactly when the caller has passed the `go`
statement. -/
def RunState.Inv {σ : Type} (s : RunState σ) : Prop :=
  s.errResult = [] ∧
    (∀ v, s.main = MainPc.returned v → s.ctxErr = v ∧ v.isSome = true) ∧
    (s.main = MainPc.entry ↔ s.worker = WorkerPc.notStarted)

/-- Two states of `Run` agree on everything but the context and the progress of the
caller past the `go` statement: the handle with its server, the started goroutine, the
output, the diagnostic records, and whether the process has crashed. -/
def RunState.sameListener {σ : Type} (s t : RunState σ) : Prop :=
  s.server = t.server ∧ s.worker = t.worker ∧ s.stdout = t.stdout ∧ s.log = t.log ∧
    s.crashed = t.crashed ∧ (s.main = MainPc.entry ↔ t.main = MainPc.entry)

/-- The registration `Run` makes can still succeed: as long as the started goroutine
has not passed `mux.Handle`, the mount path is not empty and not yet registered. -/
def RunState.mountable {σ : Type} (s : RunState σ) : Prop :=
  (s.worker = WorkerPc.notStarted ∨ s.worker = WorkerPc.handle) →
    handlePanics s.server.mux s.server.path = false

/-! ## Observations through a recording downstream handler -/

/-- The value of a response header as the cross-origin handler leaves it, read from a
run whose downstream handler records its calls: for a preflight request it is read in
the final state of the writer (nothing runs after the handler); for any other request
it is read in the state of the writer at the moment the downstream handler is called
(the last recorded call), before that handler can change it. -/
def emitted {σ : Type} (r : Request) (w : Nat)
    (out : World (List (Nat × Request × ResponseWriter) × σ)) (key : String) : String :=
  if r.Method = "OPTIONS" then
    (out.writers w).header.Get key
  else
    match out.ext.1.getLast? with
    | some (_, _, rw) => rw.header.Get key
    | none => ""

/-- The handle `New` builds when the RPC handler it is given records its calls. -/
def recordingServer {σ : Type} (env : Env) (logger : Option Logger)
    (newAuthServiceHandler : String → String × Handler σ) :
    GrpcServer (List (Nat × Request × ResponseWriter) × σ) :=
  (New env logger
    (fun url => ((newAuthServiceHandler url).1, recordCalls (newAuthServiceHandler url).2))).server

/-! ## Concrete inputs -/

/-- An environment with `PUBLIC_URL` and `PORT` set. -/
def envPublic : Env := fun key =>
  if key = "PUBLIC_URL" then some "https://app.example.com"
  else if key = "PORT" then some "8443"
  else none

/-- An environment with `PUBLIC_URL` unset and `CLIENT_URL` set. -/
def envFallback : Env := fun key =>
  if key = "CLIENT_URL" then some "https://fallback.example.com" else none

/-- The environment `envFallback` after `CLIENT_URL` has been changed. -/
def envChanged : Env := fun key =>
  if key = "CLIENT_URL" then some "https://other.example.com" else none

/-- A response writer on which nothing has been set or written. -/
def blankWriter : ResponseWriter :=
  { header := ⟨fun _ => none⟩, status := none, body := [] }

/-- A world of blank writers in which the downstream handler has recorded no call. -/
def blankWorld : World (List (Nat × Request × ResponseWriter) × Unit) :=
  { writers := fun _ => blankWriter, ext := ([], ()) }

/-- A preflight request. -/
def preflight : Request :=
  Request.mk "OPTIONS" "/auth.v1.AuthService/Login" "" Context.background

/-- A POST request whose context has a cancellation source and a stored value. -/
def post : Request :=
  Request.mk "POST" "/auth.v1.AuthService/Login" "body"
    (Context.withValue (Context.withDeadline (Context.withCancel Context.background 1) 2 500)
      (Key.other 4) (Val.other 9))

/-- An RPC service mounted at a fixed path whose handler changes nothing. -/
def idleService : String → String × Handler Unit :=
  fun _ => ("/auth.v1.AuthService/", fun _ _ st => st)

/-- The listener fails to bind its address, and the caller of `Run` is scheduled
again afterwards. -/
def bindFailure : List Event :=
  [Event.main false, Event.worker, Event.worker, Event.worker,
    Event.serveFails (GoError.other "listen tcp 0.0.0.0:8443: bind: address already in use"),
    Event.main false, Event.main true]

/-- The listener is accepting when the context given to `Run` is cancelled. -/
def cancelWhileServing : List Event :=
  [Event.main false, Event.worker, Event.worker, Event.worker,
    Event.cancel GoError.Canceled, Event.main false]

/-- The context given to `Run` is cancelled before the started goroutine has run. -/
def cancelEarly : List Event :=
  [Event.main false, Event.cancel GoError.Canceled, Event.main false]

/-- The caller of `Run` and the started goroutine run up to the accept loop. -/
def startUp : List Event :=
  [Event.main false, Event.worker, Event.worker, Event.worker]

/-! # Theorems -/

/-! ## The cross-origin handler -/

theorem corsHandler_New {σ : Type} (env : Env) (logger : Option Logger)
    (nash : String → String × Handler σ) :
    (New env logger nash).server.corsHandler =
      corsHandler (Getenv env "PUBLIC_URL")
        (nash (if Getenv env "ERDTREE_URL" = "" then Getenv env "ERDTREE_LOCAL_URL"
               else Getenv env "ERDTREE_URL")).2 := by
  simp [New]

theorem recordingServer_corsHandler {σ : Type} (env : Env) (logger : Option Logger)
    (nash : String → String × Handler σ) :
    (recordingServer env logger nash).corsHandler =
      corsHandler (Getenv env "PUBLIC_URL")
        (recordCalls (nash (if Getenv env "ERDTREE_URL" = "" then Getenv env "ERDTREE_LOCAL_URL"
               else Getenv env "ERDTREE_URL")).2) := by
  simp [recordingServer, New]

theorem corsHandler_preflight {σ : Type} (publicUrl : String) (handler : Handler σ)
    (env : Env) (w : Nat) (r : Request) (st : World σ) (h : r.Method = "OPTIONS") :
    let out := corsHandler publicUrl handler env w r st
    (out.writers w).header.vals "Access-Control-Allow-Origin" =
        some [if publicUrl ≠ "" then publicUrl else Getenv env "CLIENT_URL"] ∧
      (out.writers w).header.vals "Access-Control-Allow-Methods" =
        some ["GET, POST, OPTIONS"] ∧
      (out.writers w).header.vals "Access-Control-Allow-Headers" =
        some ["Content-Type, Authorization, Set-Cookie, connect-protocol-version"] ∧
      (out.writers w).header.vals "Access-Control-Allow-Credentials" = some ["true"] ∧
      (out.writers w).status = (st.writers w).status ∧
      (out.writers w).body = (st.writers w).body ∧
      (∀ key, key ≠ "Access-Control-Allow-Origin" → key ≠ "Access-Control-Allow-Methods" →
        key ≠ "Access-Control-Allow-Headers" → key ≠ "Access-Control-Allow-Credentials" →
        (out.writers w).header.vals key = (st.writers w).header.vals key) ∧
      (∀ w2, w2 ≠ w → out.writers w2 = st.writers w2) ∧
      out.ext = st.ext := by
  refine ⟨?_, ?_, ?_, ?_, ?_, ?_, ?_, ?_, ?_⟩
  · by_cases hp : publicUrl = "" <;>
      simp [corsHandler, h, headerSet, Header.Set, Function.update, hp]
  · simp [corsHandler, h, headerSet, Header.Set, Function.update]
  · simp [corsHandler, h, headerSet, Header.Set, Function.update]
  · simp [corsHandler, h, headerSet, Header.Set, Function.update]
  · by_cases hp : publicUrl = "" <;>
      simp [corsHandler, h, headerSet, Function.update, hp]
  · by_cases hp : publicUrl = "" <;>
      simp [corsHandler, h, headerSet, Function.update, hp]
  · intro key h1 h2 h3 h4
    by_cases hp : publicUrl = "" <;>
      simp [corsHandler, h, headerSet, Header.Set, Function.update, hp, h1, h2, h3, h4]
  · intro w2 hw
    by_cases hp : publicUrl = "" <;>
      simp [corsHandler, h, headerSet, Function.update, hp, hw]
  · by_cases hp : publicUrl = "" <;>
      simp [corsHandler, h, headerSet, hp]

/-- C1. For a request whose method is "OPTIONS" and any prior state of the world, the
handler built by `New` leaves the four cross-origin headers set on the writer `w`
(origin as configured, methods, headers and credentials with their fixed values),
leaves the explicit status and the body of `w` as they were, leaves every other header
of `w`, every other writer and the downstream state untouched, and the downstream RPC
handler records no call. -/
theorem options_sets_headers_and_never_dispatches {σ : Type} (env0 env : Env)
    (logger : Option Logger) (nash : String → String × Handler σ) (w : Nat) (r : Request)
    (st : World (List (Nat × Request × ResponseWriter) × σ)) (h : r.Method = "OPTIONS") :
    let out := (recordingServer env0 logger nash).corsHandler env w r st
    (out.writers w).header.vals "Access-Control-Allow-Origin" =
        some [if Getenv env0 "PUBLIC_URL" ≠ "" then Getenv env0 "PUBLIC_URL"
              else Getenv env "CLIENT_URL"] ∧
      (out.writers w).header.vals "Access-Control-Allow-Methods" =
        some ["GET, POST, OPTIONS"] ∧
      (out.writers w).header.vals "Access-Control-Allow-Headers" =
        some ["Content-Type, Authorization, Set-Cookie, connect-protocol-version"] ∧
      (out.writers w).header.vals "Access-Control-Allow-Credentials" = some ["true"] ∧
      (out.writers w).status = (st.writers w).status ∧
      (out.writers w).body = (st.writers w).body ∧
      (∀ key, key ≠ "Access-Control-Allow-Origin" → key ≠ "Access-Control-Allow-Methods" →
        key ≠ "Access-Control-Allow-Headers" → key ≠ "Access-Control-Allow-Credentials" →
        (out.writers w).header.vals key = (st.writers w).header.vals key) ∧
      (∀ w2, w2 ≠ w → out.writers w2 = st.writers w2) ∧
      out.ext = st.ext := by
  rw [recordingServer_corsHandler]
  exact corsHandler_preflight _ _ env w r st h

/-- Witness of C1: a preflight request served by a handle built with
`PUBLIC_URL=https://app.example.com`. -/
theorem options_sets_headers_and_never_dispatches_witness :
    preflight.Method = "OPTIONS" ∧
      (((recordingServer envPublic none idleService).corsHandler envPublic 0 preflight
          blankWorld).writers 0).header.vals "Access-Control-Allow-Origin" =
        some ["https://app.example.com"] ∧
      ((recordingServer envPublic none idleService).corsHandler envPublic 0 preflight
          blankWorld).ext = blankWorld.ext :=
  ⟨rfl,
    (options_sets_headers_and_never_dispatches envPublic envPublic none idleService 0
      preflight blankWorld rfl).1.trans (by decide),
    (options_sets_headers_and_never_dispatches envPublic envPublic none idleService 0
      preflight blankWorld rfl).2.2.2.2.2.2.2.2⟩

theorem corsHandler_dispatch {σ : Type} (publicUrl : String)
    (h : Handler σ) (env : Env) (w : Nat) (r : Request)
    (st : World (List (Nat × Request × ResponseWriter) × σ)) (hm : r.Method ≠ "OPTIONS") :
    ∃ rw : ResponseWriter,
      (corsHandler publicUrl (recordCalls h) env w r st).ext.1 =
        st.ext.1 ++ [(w, r.WithContext
          (Context.withValue r.Context Key.HttpRequestKey (Val.HttpRequestResponse r w)), rw)] ∧
      rw.header.vals "Access-Control-Allow-Origin" =
        some [if publicUrl ≠ "" then publicUrl else Getenv env "CLIENT_URL"] ∧
      rw.header.vals "Access-Control-Allow-Methods" = some ["GET, POST, OPTIONS"] ∧
      rw.header.vals "Access-Control-Allow-Headers" =
        some ["Content-Type, Authorization, Set-Cookie, connect-protocol-version"] ∧
      rw.header.vals "Access-Control-Allow-Credentials" = some ["true"] ∧
      rw.status = (st.writers w).status ∧ rw.body = (st.writers w).body := by
  refine ⟨((headerSet w "Access-Control-Allow-Credentials" "true"
    (headerSet w "Access-Control-Allow-Headers"
      "Content-Type, Authorization, Set-Cookie, connect-protocol-version"
      (headerSet w "Access-Control-Allow-Methods" "GET, POST, OPTIONS"
        (headerSet w "Access-Control-Allow-Origin"
          (if publicUrl ≠ "" then publicUrl else Getenv env "CLIENT_URL") st)))).writers w),
    ?_, ?_⟩
  · by_cases hp : publicUrl = "" <;> simp [corsHandler, hm, recordCalls, hp] <;> rfl
  · by_cases hp : publicUrl = "" <;> simp [headerSet, Header.Set, Function.update, hp]

theorem Header.Get_of_vals (h : Header) (key v : String) (hv : h.vals key = some [v]) :
    h.Get key = v := by
  simp [Header.Get, hv]

theorem emitted_origin {σ : Type} (publicUrl : String) (h : Handler σ) (env : Env) (w : Nat)
    (r : Request) (st : World (List (Nat × Request × ResponseWriter) × σ)) :
    emitted r w (corsHandler publicUrl (recordCalls h) env w r st)
        "Access-Control-Allow-Origin" =
      if publicUrl ≠ "" then publicUrl else Getenv env "CLIENT_URL" := by
  by_cases hm : r.Method = "OPTIONS"
  · have hv := (corsHandler_preflight publicUrl (recordCalls h) env w r st hm).1
    simp only [emitted, hm, if_true]
    exact Header.Get_of_vals _ _ _ hv
  · obtain ⟨rw, hlog, hv, -⟩ := corsHandler_dispatch publicUrl h env w r st hm
    simp only [emitted, hm, if_false, hlog]
    simp [Header.Get_of_vals _ _ _ hv]

/-- C2. For a request whose method is not "OPTIONS", the handler built by `New` calls the
downstream RPC handler exactly once (one call is appended to the record of calls), with
the same writer `w`; the writer state recorded at the moment of that call already holds
all four cross-origin headers (and no status or body written by the handler), and the
request passed already carries the injected context value. -/
theorem non_options_dispatches_once_after_headers {σ : Type} (env0 env : Env)
    (logger : Option Logger) (nash : String → String × Handler σ) (w : Nat) (r : Request)
    (st : World (List (Nat × Request × ResponseWriter) × σ)) (h : r.Method ≠ "OPTIONS") :
    ∃ (r2 : Request) (rw : ResponseWriter),
      ((recordingServer env0 logger nash).corsHandler env w r st).ext.1 =
        st.ext.1 ++ [(w, r2, rw)] ∧
      rw.header.vals "Access-Control-Allow-Origin" =
        some [if Getenv env0 "PUBLIC_URL" ≠ "" then Getenv env0 "PUBLIC_URL"
              else Getenv env "CLIENT_URL"] ∧
      rw.header.vals "Access-Control-Allow-Methods" = some ["GET, POST, OPTIONS"] ∧
      rw.header.vals "Access-Control-Allow-Headers" =
        some ["Content-Type, Authorization, Set-Cookie, connect-protocol-version"] ∧
      rw.header.vals "Access-Control-Allow-Credentials" = some ["true"] ∧
      rw.status = (st.writers w).status ∧ rw.body = (st.writers w).body ∧
      (r2.Context.Value Key.HttpRequestKey).isSome = true := by
  rw [recordingServer_corsHandler]
  obtain ⟨rw, hlog, h1, h2, h3, h4, h5, h6⟩ := corsHandler_dispatch _ _ env w r st h
  refine ⟨_, rw, hlog, h1, h2, h3, h4, h5, h6, ?_⟩
  cases r
  simp [Request.WithContext, Request.Context, Context.Value]

/-- Witness of C2: a POST request served by a handle built with `PUBLIC_URL` unset. -/
theorem non_options_dispatches_once_after_headers_witness :
    post.Method ≠ "OPTIONS" ∧
      ∃ (r2 : Request) (rw : ResponseWriter),
        ((recordingServer envFallback none idleService).corsHandler envFallback 3 post
          blankWorld).ext.1 = [(3, r2, rw)] ∧
        rw.header.vals "Access-Control-Allow-Credentials" = some ["true"] :=
  ⟨by decide,
    (non_options_dispatches_once_after_headers envFallback envFallback none idleService 3
      post blankWorld (by decide)).imp fun _ hr =>
        hr.imp fun _ hw => ⟨hw.1, hw.2.2.2.2.1⟩⟩

/-- C3. For every request, preflight or not, the `Access-Control-Allow-Origin` value the
handler built by `New` emits is the value `PUBLIC_URL` had when `New` ran if that value
is non-empty, and otherwise (empty or unset) the value `CLIENT_URL` has when the request
is served; in an environment that does not change these are the `PUBLIC_URL` and
`CLIENT_URL` of the claim. -/
theorem allow_origin_is_public_url_else_client_url {σ : Type} (env0 env : Env)
    (logger : Option Logger) (nash : String → String × Handler σ) (w : Nat) (r : Request)
    (st : World (List (Nat × Request × ResponseWriter) × σ)) :
    emitted r w ((recordingServer env0 logger nash).corsHandler env w r st)
        "Access-Control-Allow-Origin" =
      if Getenv env0 "PUBLIC_URL" ≠ "" then Getenv env0 "PUBLIC_URL"
      else Getenv env "CLIENT_URL" := by
  rw [recordingServer_corsHandler]
  exact emitted_origin _ _ env w r st

theorem scenario_public_url :
    emitted preflight 0
        ((recordingServer envPublic none idleService).corsHandler envPublic 0 preflight
          blankWorld) "Access-Control-Allow-Origin" = "https://app.example.com" ∧
      (New envPublic none idleService).server.srv.Addr = "0.0.0.0:8443" := by
  decide

theorem scenario_fallback_url :
    emitted preflight 0
        ((recordingServer envFallback none idleService).corsHandler envFallback 0 preflight
          blankWorld) "Access-Control-Allow-Origin" = "https://fallback.example.com" ∧
      emitted post 0
        ((recordingServer envFallback none idleService).corsHandler envFallback 0 post
          blankWorld) "Access-Control-Allow-Origin" = "https://fallback.example.com" := by
  decide

/-- C4. For a request `r` whose method is not "OPTIONS", served with writer `w`, the
downstream handler is called once with the same `w` and a request whose context maps
`keys.HttpRequestKey` to the pair (Request = `r`, Response = `w`), gives every other key
the value it has in the context of `r`, and has the same `Err`, `Done` (whatever
cancellation sources have fired) and `Deadline` as the context of `r`; the other fields
of the request are those of `r`. -/
theorem injected_context_carries_handles_and_keeps_the_rest {σ : Type} (env0 env : Env)
    (logger : Option Logger) (nash : String → String × Handler σ) (w : Nat) (r : Request)
    (st : World (List (Nat × Request × ResponseWriter) × σ)) (h : r.Method ≠ "OPTIONS") :
    ∃ (r2 : Request) (rw : ResponseWriter),
      ((recordingServer env0 logger nash).corsHandler env w r st).ext.1 =
        st.ext.1 ++ [(w, r2, rw)] ∧
      r2.Context.Value Key.HttpRequestKey = some (Val.HttpRequestResponse r w) ∧
      (∀ k, k ≠ Key.HttpRequestKey → r2.Context.Value k = r.Context.Value k) ∧
      (∀ fired, r2.Context.Err fired = r.Context.Err fired) ∧
      (∀ fired, r2.Context.Done fired = r.Context.Done fired) ∧
      r2.Context.Deadline = r.Context.Deadline ∧
      r2.Method = r.Method ∧ r2.URL = r.URL ∧ r2.Body = r.Body := by
  rw [recordingServer_corsHandler]
  obtain ⟨rw, hlog, -⟩ := corsHandler_dispatch _ _ env w r st h
  refine ⟨_, rw, hlog, ?_⟩
  cases r
  refine ⟨?_, ?_, ?_, ?_, ?_, ?_⟩
  · simp [Request.WithContext, Request.Context, Context.Value]
  · intro k hk
    simp [Request.WithContext, Request.Context, Context.Value, Ne.symm hk]
  · intro fired
    simp [Request.WithContext, Request.Context, Context.Err]
  · intro fired
    simp [Request.WithContext, Request.Context, Context.Done, Context.Err]
  · simp [Request.WithContext, Request.Context, Context.Deadline]
  · simp [Request.WithContext, Request.Method, Request.URL, Request.Body]

/-- Witness of C4: the POST request `post`, whose context has a deadline, a cancellation
source and a value under another key. -/
theorem injected_context_carries_handles_and_keeps_the_rest_witness :
    post.Method ≠ "OPTIONS" ∧
      ∃ (r2 : Request) (rw : ResponseWriter),
        ((recordingServer envPublic none idleService).corsHandler envPublic 3 post
          blankWorld).ext.1 = [(3, r2, rw)] ∧
        r2.Context.Value Key.HttpRequestKey = some (Val.HttpRequestResponse post 3) ∧
        r2.Context.Value (Key.other 4) = some (Val.other 9) ∧
        r2.Context.Deadline = some 500 :=
  ⟨by decide,
    (injected_context_carries_handles_and_keeps_the_rest envPublic envPublic none idleService
      3 post blankWorld (by decide)).imp fun _ hr =>
        hr.imp fun _ hw =>
          ⟨hw.1, hw.2.1, (hw.2.2.1 (Key.other 4) (by decide)).trans rfl,
            hw.2.2.2.2.2.1.trans rfl⟩⟩

/-- C10, amended. The value of `PUBLIC_URL` is read once, when `New` runs; the value of
`CLIENT_URL` is read each time a request is served. Two requests served by the same
handle get the same `Access-Control-Allow-Origin` value whenever `PUBLIC_URL` was
non-empty when `New` ran, or `CLIENT_URL` has the same value at both requests; whatever
else changes in the environment between them (`PUBLIC_URL` included) has no effect. -/
theorem allow_origin_same_unless_client_url_changes {σ : Type} (env0 env1 env2 : Env)
    (logger : Option Logger) (nash : String → String × Handler σ) (w1 w2 : Nat)
    (r1 r2 : Request) (st1 st2 : World (List (Nat × Request × ResponseWriter) × σ))
    (h : Getenv env0 "PUBLIC_URL" ≠ "" ∨ Getenv env1 "CLIENT_URL" = Getenv env2 "CLIENT_URL") :
    emitted r1 w1 ((recordingServer env0 logger nash).corsHandler env1 w1 r1 st1)
        "Access-Control-Allow-Origin" =
      emitted r2 w2 ((recordingServer env0 logger nash).corsHandler env2 w2 r2 st2)
        "Access-Control-Allow-Origin" := by
  rw [recordingServer_corsHandler, emitted_origin, emitted_origin]
  rcases h with h | h
  · simp [h]
  · simp [h]

/-- Witness of C10, amended: a handle built with `PUBLIC_URL` set serves a preflight
request and, after `CLIENT_URL` has changed, a POST request. -/
theorem allow_origin_same_unless_client_url_changes_witness :
    Getenv envPublic "PUBLIC_URL" ≠ "" ∧
      emitted preflight 0
          ((recordingServer envPublic none idleService).corsHandler envFallback 0 preflight
            blankWorld) "Access-Control-Allow-Origin" =
        emitted post 1
          ((recordingServer envPublic none idleService).corsHandler envChanged 1 post
            blankWorld) "Access-Control-Allow-Origin" :=
  ⟨by decide,
    allow_origin_same_unless_client_url_changes envPublic envFallback envChanged none
      idleService 0 1 preflight post blankWorld blankWorld (Or.inl (by decide))⟩

/-- C10, counterexample. One handle, built while `PUBLIC_URL` is unset, serves the same
preflight request twice; `CLIENT_URL` changes in the environment between the two, and
the two `Access-Control-Allow-Origin` values differ. -/
theorem allow_origin_follows_client_url_counterexample :
    emitted preflight 0
        ((recordingServer envFallback none idleService).corsHandler envFallback 0 preflight
          blankWorld) "Access-Control-Allow-Origin" = "https://fallback.example.com" ∧
      emitted preflight 0
        ((recordingServer envFallback none idleService).corsHandler envChanged 0 preflight
          blankWorld) "Access-Control-Allow-Origin" = "https://other.example.com" ∧
      emitted preflight 0
        ((recordingServer envFallback none idleService).corsHandler envFallback 0 preflight
          blankWorld) "Access-Control-Allow-Origin" ≠
      emitted preflight 0
        ((recordingServer envFallback none idleService).corsHandler envChanged 0 preflight
          blankWorld) "Access-Control-Allow-Origin" := by
  decide

/-! ## The interceptor -/

/-- C8. The interceptor returned by `NewAuthInterceptor` is the identity on unary
functions: the wrapped function is `next` itself, so for every context, request and
state it returns the response, the error and the state change of `next`; and when `next`
records its calls, one call of the wrapped function records exactly one call of `next`,
made with the same context and the same request. -/
theorem auth_interceptor_is_identity {σ : Type} (next : UnaryFunc σ) (ctx : Context)
    (req : AnyRequest) (s : σ) (calls : List (Context × AnyRequest)) :
    NewAuthInterceptor next = next ∧
      NewAuthInterceptor next ctx req s = next ctx req s ∧
      NewAuthInterceptor (recordUnary next) ctx req (calls, s) =
        ((next ctx req s).1, (calls ++ [(ctx, req)], (next ctx req s).2)) :=
  ⟨rfl, rfl, rfl⟩

theorem auth_interceptor_passes_error_on :
    (NewAuthInterceptor
        (fun _ _ (n : Nat) => ((none, some (GoError.other "unauthenticated")), n + 1))
        Context.background { procedure := "/auth.v1.AuthService/Login", payload := "" } 0) =
      ((none, some (GoError.other "unauthenticated")), 1) := by
  decide

/-! ## Stop -/

/-- What `Stop` does on a handle whose logger is not nil, for every outcome of the
server's `Shutdown`: `Stop` calls `Shutdown` exactly once, with a context
whose deadline is the moment of the call plus the handle's `shutDownTimeout`; it returns
normally and hands nothing back (the error is not propagated); the sink receives exactly
one new record, at level ERROR, when the outcome is an error, and none when it is nil;
the deferred cancel runs; nothing else in the handle changes. The handle `New` builds
has `shutDownTimeout` equal to 10 seconds. -/
theorem Stop_with_logger {σ : Type} (server : GrpcServer σ)
    (lg : Logger) (hl : server.logger = some lg) (now cancelId : Nat)
    (outcome : Option GoError) (log : List LogEntry) :
    (∃ ctx : Context,
        (Stop server now cancelId outcome log).server.srv.shutdownCalls =
          server.srv.shutdownCalls ++ [ctx] ∧
        ctx.Deadline = some (now + server.shutDownTimeout)) ∧
      (Stop server now cancelId outcome log).panicked = false ∧
      (outcome = none → (Stop server now cancelId outcome log).log = log) ∧
      (∀ e, outcome = some e →
        (Stop server now cancelId outcome log).log =
          log ++ [{ sink := lg.sink, level := "ERROR", msg := "failed to shutdown HTTP Server",
                    attrs := [("error", e.Error)] }]) ∧
      ((Stop server now cancelId outcome log).log ≠ log ↔ outcome ≠ none) ∧
      (Stop server now cancelId outcome log).cancelled = [cancelId] ∧
      (Stop server now cancelId outcome log).server.srv.Addr = server.srv.Addr ∧
      (Stop server now cancelId outcome log).server.shutDownTimeout = server.shutDownTimeout ∧
      (Stop server now cancelId outcome log).server.logger = server.logger ∧
      (Stop server now cancelId outcome log).server.path = server.path ∧
      (∀ (env : Env) (logger : Option Logger) (nash : String → String × Handler σ),
        (New env logger nash).server.shutDownTimeout = 10 * Second ∧
        10 * Second = 10000000000) := by
  cases outcome <;>
    refine ⟨⟨Context.withDeadline Context.background cancelId (now + server.shutDownTimeout),
      ?_, rfl⟩, ?_, ?_, ?_, ?_, ?_, ?_, ?_, ?_, ?_, ?_⟩ <;>
    simp [Stop, Server.Shutdown, hl, New, Second]

theorem scenario_Stop_with_logger :
    (Stop (New envPublic (some ⟨1⟩) idleService).server 1000 5
          (some GoError.DeadlineExceeded) []).log =
        [{ sink := 1, level := "ERROR", msg := "failed to shutdown HTTP Server",
           attrs := [("error", "context deadline exceeded")] }] ∧
      (Stop (New envPublic (some ⟨1⟩) idleService).server 1000 5
          (some GoError.DeadlineExceeded) []).panicked = false ∧
      (Stop (New envPublic (some ⟨1⟩) idleService).server 1000 5 none []).log = [] := by
  decide

/-- C7, as the code behaves on a handle whose logger is nil (`New` stores whatever
logger it is given, and the source notes that the logger is nil). `Stop` calls
`Shutdown` exactly once, with a context whose deadline is the moment of the call plus
the handle's `shutDownTimeout`; but when `Shutdown` returns an error, the call
`server.logger.Error(...)` dereferences the nil logger: `Stop` panics instead of
returning, and no record is written. Only when `Shutdown` returns nil does `Stop`
return normally, having written nothing. -/
theorem Stop_nil_logger_panics_when_Shutdown_fails {σ : Type} (server : GrpcServer σ)
    (hl : server.logger = none) (now cancelId : Nat) (outcome : Option GoError)
    (log : List LogEntry) :
    (Stop server now cancelId outcome log).server.srv.shutdownCalls =
        server.srv.shutdownCalls ++
          [Context.withDeadline Context.background cancelId (now + server.shutDownTimeout)] ∧
      (Context.withDeadline Context.background cancelId
        (now + server.shutDownTimeout)).Deadline = some (now + server.shutDownTimeout) ∧
      (Stop server now cancelId outcome log).log = log ∧
      ((Stop server now cancelId outcome log).panicked = true ↔ outcome ≠ none) := by
  cases outcome <;> simp [Stop, Server.Shutdown, hl, Context.Deadline]

/-- Witness of C7: the handle `New` builds when it is given a nil logger; a request
outlives the timeout, so `Shutdown` returns `context.DeadlineExceeded`. -/
theorem Stop_nil_logger_panics_when_Shutdown_fails_witness :
    (New envPublic none idleService).server.logger = none ∧
      (New envPublic none idleService).server.shutDownTimeout = 10000000000 ∧
      (Stop (New envPublic none idleService).server 1000 5
          (some GoError.DeadlineExceeded) []).panicked = true ∧
      (Stop (New envPublic none idleService).server 1000 5
          (some GoError.DeadlineExceeded) []).log = [] :=
  ⟨rfl, by decide,
    (Stop_nil_logger_panics_when_Shutdown_fails (New envPublic none idleService).server rfl
      1000 5 (some GoError.DeadlineExceeded) []).2.2.2.2 (by decide),
    (Stop_nil_logger_panics_when_Shutdown_fails (New envPublic none idleService).server rfl
      1000 5 (some GoError.DeadlineExceeded) []).2.2.1⟩

/-! ## Run -/

theorem step_of_crashed {σ : Type} (s : RunState σ) (ev : Event) (h : s.crashed = true) :
    step s ev = s := by
  simp [step, h]

theorem foldl_step_of_crashed {σ : Type} (evs : List Event) (s : RunState σ)
    (h : s.crashed = true) : evs.foldl step s = s := by
  induction evs with
  | nil => rfl
  | cons ev rest ih => rw [List.foldl_cons, step_of_crashed s ev h, ih]

theorem runInit_inv {σ : Type} (server : GrpcServer σ) (c0 : Option GoError)
    (log : List LogEntry) : (runInit server c0 log).Inv := by
  simp [RunState.Inv, runInit]

theorem step_inv {σ : Type} (s : RunState σ) (ev : Event) (h : s.Inv) : (step s ev).Inv := by
  obtain ⟨h1, h2, h3⟩ := h
  cases hc : s.crashed with
  | true =>
    rw [step_of_crashed s ev hc]
    exact ⟨h1, h2, h3⟩
  | false =>
    cases ev with
    | main pick =>
      cases hm : s.main <;> cases hce : s.ctxErr <;>
        simp_all [step, stepMain, RunState.Inv]
    | worker =>
      by_cases hs : s.server.srv.inShutdown = true <;>
        by_cases hp : handlePanics s.server.mux s.server.path = true <;>
        cases hw : s.worker <;>
        simp only [step, stepWorker, hc, hw, hs, hp, Bool.false_eq_true, ↓reduceIte] <;>
        first
          | exact ⟨h1, h2, h3⟩
          | (refine ⟨h1, h2, ?_⟩; simp_all)
    | cancel reason =>
      cases hce : s.ctxErr with
      | none =>
        simp only [step, hc, hce, Bool.false_eq_true, ↓reduceIte]
        refine ⟨h1, ?_, h3⟩
        intro v hv
        have := h2 v hv
        simp_all
      | some e =>
        simp only [step, hc, hce, Bool.false_eq_true, ↓reduceIte]
        exact ⟨h1, hce ▸ h2, h3⟩
    | serveFails err =>
      cases hw : s.worker <;> simp only [step, hc, hw, Bool.false_eq_true, ↓reduceIte] <;>
        first
          | exact ⟨h1, h2, h3⟩
          | (refine ⟨h1, h2, ?_⟩; simp_all)
    | stop now cancelId outcome =>
      cases hw : s.worker <;> simp only [step, hc, hw, Bool.false_eq_true, ↓reduceIte] <;>
        (refine ⟨h1, h2, ?_⟩; simp_all)

theorem foldl_step_inv {σ : Type} (evs : List Event) (s : RunState σ) (h : s.Inv) :
    (evs.foldl step s).Inv := by
  induction evs generalizing s with
  | nil => exact h
  | cons ev rest ih => exact ih (step s ev) (step_inv s ev h)

theorem Run_inv {σ : Type} (server : GrpcServer σ) (c0 : Option GoError)
    (log : List LogEntry) (evs : List Event) : (Run server c0 log evs).Inv :=
  foldl_step_inv evs _ (runInit_inv server c0 log)

theorem Run_append {σ : Type} (server : GrpcServer σ) (c0 : Option GoError)
    (log : List LogEntry) (evs1 evs2 : List Event) :
    Run server c0 log (evs1 ++ evs2) = evs2.foldl step (Run server c0 log evs1) := by
  simp [Run, List.foldl_append]

theorem step_ctxErr_some {σ : Type} (s : RunState σ) (ev : Event) (e : GoError)
    (h : s.ctxErr = some e) : (step s ev).ctxErr = some e := by
  cases hc : s.crashed with
  | true => rw [step_of_crashed s ev hc]; exact h
  | false =>
    cases ev with
    | main pick =>
      cases hm : s.main <;> cases hr : s.errResult <;> cases pick <;>
        simp [step, stepMain, hc, hm, h, hr]
    | worker =>
      by_cases hs : s.server.srv.inShutdown = true <;>
        by_cases hp : handlePanics s.server.mux s.server.path = true <;>
        cases hw : s.worker <;>
        simp [step, stepWorker, hc, hw, hs, hp, h]
    | cancel reason => simp [step, hc, h]
    | serveFails err => cases hw : s.worker <;> simp [step, hc, hw, h]
    | stop now cancelId outcome => simp [step, hc, h]

theorem step_main_rank {σ : Type} (s : RunState σ) (ev : Event) (e : GoError)
    (hc : s.crashed = false) (hinv : s.Inv) (h : s.ctxErr = some e) :
    (step s ev).main.rank ≤ s.main.rank - (if ev.isMain = true then 1 else 0) := by
  obtain ⟨h1, -, -⟩ := hinv
  cases ev with
  | main pick =>
    cases hm : s.main <;> simp [step, stepMain, hc, hm, h, h1, MainPc.rank, Event.isMain]
  | worker =>
    by_cases hs : s.server.srv.inShutdown = true <;>
      by_cases hp : handlePanics s.server.mux s.server.path = true <;>
      cases hw : s.worker <;>
      simp [step, stepWorker, hc, hw, hs, hp, Event.isMain]
  | cancel reason => simp [step, hc, h, Event.isMain]
  | serveFails err => cases hw : s.worker <;> simp [step, hc, hw, Event.isMain]
  | stop now cancelId outcome => simp [step, hc, Event.isMain]

theorem main_returns_of_done {σ : Type} (evs : List Event) (s : RunState σ) (e : GoError)
    (hinv : s.Inv) (h : s.ctxErr = some e)
    (halive : (evs.foldl step s).crashed = false)
    (hsched : s.main.rank ≤ evs.countP Event.isMain) :
    (evs.foldl step s).main = MainPc.returned (some e) := by
  induction evs generalizing s with
  | nil =>
    cases hm : s.main with
    | entry => simp [hm, MainPc.rank] at hsched
    | select => simp [hm, MainPc.rank] at hsched
    | returned v =>
      have := (hinv.2.1 v hm).1
      simp only [List.foldl_nil, hm]
      rw [← this, h]
  | cons ev rest ih =>
    cases hc : s.crashed with
    | true =>
      rw [foldl_step_of_crashed _ s hc] at halive
      rw [hc] at halive
      cases halive
    | false =>
      rw [List.foldl_cons] at halive ⊢
      apply ih (step s ev) (step_inv s ev hinv) (step_ctxErr_some s ev e h) halive
      have hr := step_main_rank s ev e hc hinv h
      rw [List.countP_cons] at hsched
      omega

theorem MainPc.rank_le_two (pc : MainPc) : pc.rank ≤ 2 := by
  cases pc <;> simp [MainPc.rank]

theorem result_of_main {σ : Type} (s : RunState σ) (v : Option GoError)
    (h : s.main = MainPc.returned v) : s.result = some v := by
  simp [RunState.result, h]

/-- C5. Once the context given to `Run` is done with reason `e` (at whatever point of
the call, and whatever the started goroutine, the listener and other callers do before
or after), `Run` returns as soon as its caller has been scheduled twice (once for the
`go` statement, once for the `select`; fewer if it is already past them): in every
continuation in which the process is still alive, the result of `Run` is exactly `e`,
the `Err` of the context. -/
theorem Run_returns_ctx_err_after_cancellation {σ : Type} (server : GrpcServer σ)
    (c0 : Option GoError) (log : List LogEntry) (evs1 evs2 : List Event) (e : GoError)
    (hdone : (Run server c0 log evs1).ctxErr = some e)
    (hsched : 2 ≤ evs2.countP Event.isMain)
    (halive : (Run server c0 log (evs1 ++ evs2)).crashed = false) :
    (Run server c0 log (evs1 ++ evs2)).result = some (some e) ∧
      (Run server c0 log (evs1 ++ evs2)).ctxErr = some e := by
  rw [Run_append] at halive ⊢
  constructor
  · apply result_of_main
    apply main_returns_of_done evs2 _ e (Run_inv server c0 log evs1) hdone halive
    exact le_trans (MainPc.rank_le_two _) hsched
  · have hstable : ∀ (evs : List Event) (s : RunState σ), s.ctxErr = some e →
        (evs.foldl step s).ctxErr = some e := by
      intro evs
      induction evs with
      | nil => intro s hs; exact hs
      | cons ev rest ih => intro s hs; exact ih (step s ev) (step_ctxErr_some s ev e hs)
    exact hstable evs2 _ hdone

/-- Witness of C5: the context is cancelled while the goroutine is starting up; the
caller of `Run` is then scheduled twice. -/
theorem Run_returns_ctx_err_after_cancellation_witness :
    (Run (New envPublic none idleService).server none []
        [Event.main false, Event.worker, Event.cancel GoError.Canceled]).ctxErr =
        some GoError.Canceled ∧
      (Run (New envPublic none idleService).server none []
        ([Event.main false, Event.worker, Event.cancel GoError.Canceled] ++
          [Event.worker, Event.main false, Event.worker, Event.main true])).result =
        some (some GoError.Canceled) :=
  ⟨by decide,
    (Run_returns_ctx_err_after_cancellation (New envPublic none idleService).server none []
      [Event.main false, Event.worker, Event.cancel GoError.Canceled]
      [Event.worker, Event.main false, Event.worker, Event.main true] GoError.Canceled
      (by decide) (by decide) (by decide)).1⟩

theorem step_ctxErr_none {σ : Type} (s : RunState σ) (ev : Event)
    (h : s.ctxErr = none) (hev : ev.isCancel = false) : (step s ev).ctxErr = none := by
  cases hc : s.crashed with
  | true => rw [step_of_crashed s ev hc]; exact h
  | false =>
    cases ev with
    | main pick =>
      cases hm : s.main <;> cases hr : s.errResult <;> cases pick <;>
        simp [step, stepMain, hc, hm, h, hr]
    | worker =>
      by_cases hs : s.server.srv.inShutdown = true <;>
        by_cases hp : handlePanics s.server.mux s.server.path = true <;>
        cases hw : s.worker <;>
        simp [step, stepWorker, hc, hw, hs, hp, h]
    | cancel reason => simp [Event.isCancel] at hev
    | serveFails err => cases hw : s.worker <;> simp [step, hc, hw, h]
    | stop now cancelId outcome => simp [step, hc, h]

theorem foldl_step_ctxErr_none {σ : Type} (evs : List Event) (s : RunState σ)
    (h : s.ctxErr = none) (hev : ∀ ev ∈ evs, ev.isCancel = false) :
    (evs.foldl step s).ctxErr = none := by
  induction evs generalizing s with
  | nil => exact h
  | cons ev rest ih =>
    exact ih (step s ev) (step_ctxErr_none s ev h (hev ev (List.mem_cons_self _ _)))
      (fun ev2 h2 => hev ev2 (List.mem_cons_of_mem _ h2))

/-- C6, as the code behaves. While the context given to `Run` has not been cancelled,
`Run` does not return, whatever happens to the accept loop: after any events that
include no cancellation (failures of the listener and calls of `Stop` included), `Run`
has no result and nothing has been offered on `errResult`. The value of `ListenAndServe`
ends with the goroutine; it is never forwarded to the caller waiting in `Run`. -/
theorem Run_never_returns_without_cancellation {σ : Type} (server : GrpcServer σ)
    (log : List LogEntry) (evs : List Event) (h : ∀ ev ∈ evs, ev.isCancel = false) :
    (Run server none log evs).result = none ∧ (Run server none log evs).errResult = [] := by
  have hinv := Run_inv server none log evs
  have hnone : (Run server none log evs).ctxErr = none :=
    foldl_step_ctxErr_none evs _ rfl h
  refine ⟨?_, hinv.1⟩
  cases hm : (Run server none log evs).main with
  | entry => simp [RunState.result, hm]
  | select => simp [RunState.result, hm]
  | returned v =>
    have := hinv.2.1 v hm
    rw [hnone] at this
    obtain ⟨rfl, hv⟩ := this
    simp at hv

/-- Witness of C6: the listener fails to bind its address; the goroutine has ended with
that error, and `Run`, scheduled twice more, has not returned. -/
theorem Run_never_returns_without_cancellation_witness :
    (∀ ev ∈ bindFailure, ev.isCancel = false) ∧
      (Run (New envPublic none idleService).server none [] bindFailure).worker =
        WorkerPc.exited
          (some (GoError.other "listen tcp 0.0.0.0:8443: bind: address already in use")) ∧
      (Run (New envPublic none idleService).server none [] bindFailure).main =
        MainPc.select ∧
      (Run (New envPublic none idleService).server none [] bindFailure).result = none :=
  ⟨by decide, by decide, by decide,
    (Run_never_returns_without_cancellation (New envPublic none idleService).server []
      bindFailure (by decide)).1⟩

theorem step_cancel_sameListener {σ : Type} (s t : RunState σ) (reason : GoError)
    (h : s.sameListener t) : (step s (Event.cancel reason)).sameListener t := by
  cases hc : s.crashed with
  | true => rw [step_of_crashed s _ hc]; exact h
  | false =>
    obtain ⟨hsrv, hw, hout, hlog, hcr, hm⟩ := h
    cases hce : s.ctxErr <;> simp only [step, hc, hce, Bool.false_eq_true, ↓reduceIte] <;>
      exact ⟨hsrv, hw, hout, hlog, hc ▸ hcr, hm⟩

theorem step_sameListener {σ : Type} (s t : RunState σ) (ev : Event)
    (hev : ev.isCancel = false) (hs : s.Inv) (ht : t.Inv) (h : s.sameListener t) :
    (step s ev).sameListener (step t ev) := by
  obtain ⟨hsrv, hw, hout, hlog, hcr, hm⟩ := h
  cases hc : s.crashed with
  | true =>
    rw [step_of_crashed s ev hc, step_of_crashed t ev (hcr ▸ hc)]
    exact ⟨hsrv, hw, hout, hlog, hcr, hm⟩
  | false =>
    have hc2 : t.crashed = false := hcr ▸ hc
    cases ev with
    | cancel reason => simp [Event.isCancel] at hev
    | main pick =>
      have h1 := hs.1
      have h2 := ht.1
      cases hms : s.main <;> cases hmt : t.main <;> cases hcs : s.ctxErr <;>
        cases hct : t.ctxErr <;>
        simp_all [step, stepMain, RunState.sameListener]
    | worker =>
      by_cases hsh : t.server.srv.inShutdown = true <;>
        by_cases hp : handlePanics t.server.mux t.server.path = true <;>
        cases hwt : t.worker <;>
        simp_all [step, stepWorker, RunState.sameListener]
    | serveFails err =>
      cases hwt : t.worker <;> simp_all [step, RunState.sameListener]
    | stop now cancelId outcome =>
      cases hwt : t.worker <;> simp_all [step, RunState.sameListener]

theorem foldl_sameListener {σ : Type} (evs : List Event) (s t : RunState σ)
    (hs : s.Inv) (ht : t.Inv) (h : s.sameListener t) :
    (evs.foldl step s).sameListener
      ((evs.filter (fun ev => !ev.isCancel)).foldl step t) := by
  induction evs generalizing s t with
  | nil => exact h
  | cons ev rest ih =>
    cases hev : ev.isCancel with
    | true =>
      cases ev with
      | cancel reason =>
        simp only [List.foldl_cons, List.filter_cons, Event.isCancel, Bool.not_true,
          Bool.false_eq_true, ↓reduceIte]
        exact ih _ t (step_inv s _ hs) ht (step_cancel_sameListener s t reason h)
      | main pick => simp [Event.isCancel] at hev
      | worker => simp [Event.isCancel] at hev
      | serveFails err => simp [Event.isCancel] at hev
      | stop now cancelId outcome => simp [Event.isCancel] at hev
    | false =>
      simp only [List.foldl_cons, List.filter_cons, hev, Bool.not_false, ↓reduceIte]
      exact ih _ _ (step_inv s ev hs) (step_inv t ev ht) (step_sameListener s t ev hev hs ht h)

theorem Stop_inShutdown {σ : Type} (server : GrpcServer σ) (now cancelId : Nat)
    (outcome : Option GoError) (log : List LogEntry) :
    (Stop server now cancelId outcome log).server.srv.inShutdown = true := by
  cases outcome <;> cases hl : server.logger <;>
    simp [Stop, Server.Shutdown, Server.inShutdown, hl]

theorem step_srv_quiet {σ : Type} (s : RunState σ) (ev : Event) (hstop : ev.isStop = false) :
    (step s ev).server.srv = s.server.srv := by
  cases hc : s.crashed with
  | true => rw [step_of_crashed s ev hc]
  | false =>
    cases ev with
    | main pick =>
      cases hm : s.main <;> cases hce : s.ctxErr <;> cases hr : s.errResult <;> cases pick <;>
        simp [step, stepMain, hc, hm, hce, hr]
    | worker =>
      by_cases hs : s.server.srv.inShutdown = true <;>
        by_cases hp : handlePanics s.server.mux s.server.path = true <;>
        cases hw : s.worker <;>
        simp [step, stepWorker, hc, hw, hs, hp]
    | cancel reason => cases hce : s.ctxErr <;> simp [step, hc, hce]
    | serveFails err => cases hw : s.worker <;> simp [step, hc, hw]
    | stop now cancelId outcome => simp [Event.isStop] at hstop

theorem foldl_srv_quiet {σ : Type} (evs : List Event) (s : RunState σ)
    (hstop : ∀ ev ∈ evs, ev.isStop = false) :
    (evs.foldl step s).server.srv = s.server.srv := by
  induction evs generalizing s with
  | nil => rfl
  | cons ev rest ih =>
    rw [List.foldl_cons, ih (step s ev) (fun ev2 hm => hstop ev2 (List.mem_cons_of_mem _ hm))]
    exact step_srv_quiet s ev (hstop ev (List.mem_cons_self _ _))

theorem step_inShutdown_iff {σ : Type} (s : RunState σ) (ev : Event)
    (hc : s.crashed = false) (hsh : s.server.srv.inShutdown = false) :
    (step s ev).server.srv.inShutdown = true ↔ ev.isStop = true := by
  cases hst : ev.isStop with
  | false =>
    rw [step_srv_quiet s ev hst, hsh]
  | true =>
    cases ev with
    | stop now cancelId outcome =>
      simp only [step, hc, Bool.false_eq_true, ↓reduceIte, Stop_inShutdown]
    | main pick => simp [Event.isStop] at hst
    | worker => simp [Event.isStop] at hst
    | cancel reason => simp [Event.isStop] at hst
    | serveFails err => simp [Event.isStop] at hst

theorem Stop_mux_path {σ : Type} (server : GrpcServer σ) (now cancelId : Nat)
    (outcome : Option GoError) (log : List LogEntry) :
    (Stop server now cancelId outcome log).server.mux = server.mux ∧
      (Stop server now cancelId outcome log).server.path = server.path := by
  cases outcome <;> cases hl : server.logger <;> simp [Stop, Server.Shutdown, hl]

theorem step_mountable {σ : Type} (s : RunState σ) (ev : Event) (hinv : s.Inv)
    (hm : s.mountable) : (step s ev).mountable := by
  have h3 := hinv.2.2
  cases hc : s.crashed with
  | true => rw [step_of_crashed s ev hc]; exact hm
  | false =>
    cases ev with
    | main pick =>
      cases hmn : s.main <;> cases hce : s.ctxErr <;> cases hr : s.errResult <;>
        cases pick <;> cases hw : s.worker <;>
        simp_all [step, stepMain, RunState.mountable]
    | worker =>
      by_cases hs : s.server.srv.inShutdown = true <;>
        by_cases hp : handlePanics s.server.mux s.server.path = true <;>
        cases hw : s.worker <;>
        simp_all [step, stepWorker, RunState.mountable]
    | cancel reason =>
      cases hce : s.ctxErr <;> simp only [step, hc, hce, Bool.false_eq_true, ↓reduceIte] <;>
        exact hm
    | serveFails err =>
      cases hw : s.worker <;> simp_all [step, RunState.mountable]
    | stop now cancelId outcome =>
      have hmp := Stop_mux_path s.server now cancelId outcome s.log
      cases hw : s.worker <;> simp_all [step, RunState.mountable]

theorem step_crashed_quiet {σ : Type} (s : RunState σ) (ev : Event)
    (hstop : ev.isStop = false) (hm : s.mountable) : (step s ev).crashed = s.crashed := by
  cases hc : s.crashed with
  | true => rw [step_of_crashed s ev hc]; exact hc
  | false =>
    cases ev with
    | main pick =>
      cases hmn : s.main <;> cases hce : s.ctxErr <;> cases hr : s.errResult <;> cases pick <;>
        simp [step, stepMain, hc, hmn, hce, hr]
    | worker =>
      by_cases hs : s.server.srv.inShutdown = true <;>
        by_cases hp : handlePanics s.server.mux s.server.path = true <;>
        cases hw : s.worker <;>
        simp_all [step, stepWorker, RunState.mountable]
    | cancel reason => cases hce : s.ctxErr <;> simp [step, hc, hce]
    | serveFails err => cases hw : s.worker <;> simp [step, hc, hw]
    | stop now cancelId outcome => simp [Event.isStop] at hstop

theorem foldl_crashed_quiet {σ : Type} (evs : List Event) (s : RunState σ) (hinv : s.Inv)
    (hm : s.mountable) (hstop : ∀ ev ∈ evs, ev.isStop = false) :
    (evs.foldl step s).crashed = s.crashed := by
  induction evs generalizing s with
  | nil => rfl
  | cons ev rest ih =>
    rw [List.foldl_cons, ih (step s ev) (step_inv s ev hinv) (step_mountable s ev hinv hm)
      (fun ev2 h2 => hstop ev2 (List.mem_cons_of_mem _ h2))]
    exact step_crashed_quiet s ev (hstop ev (List.mem_cons_self _ _)) hm

theorem step_worker_quiet {σ : Type} (s : RunState σ) (ev : Event)
    (hstop : ev.isStop = false) (hfail : ev.isServeFails = false)
    (hsh : s.server.srv.inShutdown = false) (hinv : s.Inv) :
    ((∀ d, s.worker ≠ WorkerPc.exited d) → ∀ d, (step s ev).worker ≠ WorkerPc.exited d) ∧
      (s.worker.alive = true → (step s ev).crashed = false →
        (step s ev).worker.alive = true ∧
        (step s ev).worker.rank ≤ s.worker.rank - (if ev.isWorker = true then 1 else 0)) := by
  cases hc : s.crashed with
  | true =>
    rw [step_of_crashed s ev hc]
    exact ⟨fun h => h, fun _ h => by rw [hc] at h; cases h⟩
  | false =>
    cases ev with
    | main pick =>
      have h3 := hinv.2.2
      cases hm : s.main <;> cases hce : s.ctxErr <;> cases hr : s.errResult <;>
        cases pick <;> cases hw : s.worker <;>
        simp_all [step, stepMain, WorkerPc.alive, WorkerPc.rank, Event.isWorker]
    | worker =>
      by_cases hp : handlePanics s.server.mux s.server.path = true <;>
        cases hw : s.worker <;>
        simp [step, stepWorker, hc, hw, hsh, hp, WorkerPc.alive, WorkerPc.rank,
          Event.isWorker]
    | cancel reason =>
      cases hce : s.ctxErr <;> simp [step, hc, hce, Event.isWorker]
    | serveFails err => simp [Event.isServeFails] at hfail
    | stop now cancelId outcome => simp [Event.isStop] at hstop

theorem foldl_not_exited {σ : Type} (evs : List Event) (s : RunState σ) (hinv : s.Inv)
    (hstop : ∀ ev ∈ evs, ev.isStop = false) (hfail : ∀ ev ∈ evs, ev.isServeFails = false)
    (hsh : s.server.srv.inShutdown = false) (hne : ∀ d, s.worker ≠ WorkerPc.exited d) :
    ∀ d, (evs.foldl step s).worker ≠ WorkerPc.exited d := by
  induction evs generalizing s with
  | nil => exact hne
  | cons ev rest ih =>
    have h1 := hstop ev (List.mem_cons_self _ _)
    have h2 := hfail ev (List.mem_cons_self _ _)
    rw [List.foldl_cons]
    exact ih (step s ev) (step_inv s ev hinv)
      (fun ev2 hm => hstop ev2 (List.mem_cons_of_mem _ hm))
      (fun ev2 hm => hfail ev2 (List.mem_cons_of_mem _ hm))
      (by rw [step_srv_quiet s ev h1]; exact hsh)
      ((step_worker_quiet s ev h1 h2 hsh hinv).1 hne)

theorem worker_reaches_serving {σ : Type} (evs : List Event) (s : RunState σ) (hinv : s.Inv)
    (hstop : ∀ ev ∈ evs, ev.isStop = false) (hfail : ∀ ev ∈ evs, ev.isServeFails = false)
    (hsh : s.server.srv.inShutdown = false)
    (ha : s.worker.alive = true) (hsched : s.worker.rank ≤ evs.countP Event.isWorker)
    (halive : (evs.foldl step s).crashed = false) :
    (evs.foldl step s).worker = WorkerPc.serving := by
  induction evs generalizing s with
  | nil =>
    cases hw : s.worker <;> simp_all [WorkerPc.alive, WorkerPc.rank]
  | cons ev rest ih =>
    have h1 := hstop ev (List.mem_cons_self _ _)
    have h2 := hfail ev (List.mem_cons_self _ _)
    rw [List.foldl_cons] at halive ⊢
    have hc2 : (step s ev).crashed = false := by
      cases hc : (step s ev).crashed with
      | false => rfl
      | true =>
        rw [foldl_step_of_crashed rest _ hc, hc] at halive
        cases halive
    have hw := (step_worker_quiet s ev h1 h2 hsh hinv).2 ha hc2
    apply ih (step s ev) (step_inv s ev hinv)
      (fun ev2 hm => hstop ev2 (List.mem_cons_of_mem _ hm))
      (fun ev2 hm => hfail ev2 (List.mem_cons_of_mem _ hm))
      (by rw [step_srv_quiet s ev h1]; exact hsh) hw.1 _ halive
    have hr := hw.2
    rw [List.countP_cons] at hsched
    omega

theorem WorkerPc.rank_le_three (pc : WorkerPc) : pc.rank ≤ 3 := by
  cases pc <;> simp [WorkerPc.rank]

theorem alive_of_started {σ : Type} (s : RunState σ) (hinv : s.Inv) (v : Option GoError)
    (hret : s.result = some v) (hne : ∀ d, s.worker ≠ WorkerPc.exited d) :
    s.worker.alive = true := by
  have h3 := hinv.2.2
  cases hm : s.main <;> cases hw : s.worker <;>
    simp_all [RunState.result, WorkerPc.alive]

theorem runInit_mountable {σ : Type} (server : GrpcServer σ) (c0 : Option GoError)
    (log : List LogEntry) (h : handlePanics server.mux server.path = false) :
    (runInit server c0 log).mountable := fun _ => h

/-- C9. Cancellation alone never stops the listener. For a handle whose server has not
been asked to shut down, and any events after the call of `Run`:
(1) the started goroutine, the server and the crash flag are exactly what they would be
had the context never been cancelled (the same events with the cancellations removed,
and a context not done at the call);
(2) if no event is a call of `Stop`, the server has not been asked to shut down; and if
moreover the registration `Run` makes cannot panic (the mount path is not empty and not
already registered, as on the handle `New` returns), the process has not crashed;
(3) if no event is a call of `Stop`, the listener has not failed of its own and `Run`
has returned (which it does only with the reason of the cancellation), then, as long as
the process is alive, the goroutine has been started and has not finished, and in every
continuation without `Stop` or listener failure in which it is scheduled three times and
the process is still alive, it is in the accept loop, with the server still not asked to
shut down;
(4) from a live state reached without `Stop`, the next event leaves the server asked
to shut down exactly when it is a call of `Stop`. -/
theorem cancellation_alone_never_stops_listener {σ : Type} (server : GrpcServer σ)
    (c0 : Option GoError) (log : List LogEntry) (evs : List Event)
    (hsrv : server.srv.inShutdown = false) :
    ((Run server c0 log evs).worker =
          (Run server none log (evs.filter (fun ev => !ev.isCancel))).worker ∧
        (Run server c0 log evs).server.srv =
          (Run server none log (evs.filter (fun ev => !ev.isCancel))).server.srv ∧
        (Run server c0 log evs).crashed =
          (Run server none log (evs.filter (fun ev => !ev.isCancel))).crashed) ∧
      ((∀ ev ∈ evs, ev.isStop = false) →
        (Run server c0 log evs).server.srv.inShutdown = false ∧
        (handlePanics server.mux server.path = false →
          (Run server c0 log evs).crashed = false)) ∧
      ((∀ ev ∈ evs, ev.isStop = false) → (∀ ev ∈ evs, ev.isServeFails = false) →
        ∀ v, (Run server c0 log evs).result = some v →
          (Run server c0 log evs).ctxErr = v ∧ v.isSome = true ∧
          ((Run server c0 log evs).crashed = false →
            (Run server c0 log evs).worker.alive = true) ∧
          ∀ evs2 : List Event, (∀ ev ∈ evs2, ev.isStop = false) →
            (∀ ev ∈ evs2, ev.isServeFails = false) → 3 ≤ evs2.countP Event.isWorker →
            (Run server c0 log (evs ++ evs2)).crashed = false →
            (Run server c0 log (evs ++ evs2)).worker = WorkerPc.serving ∧
            (Run server c0 log (evs ++ evs2)).server.srv.inShutdown = false) ∧
      ((∀ ev ∈ evs, ev.isStop = false) → (Run server c0 log evs).crashed = false → ∀ ev,
        ((step (Run server c0 log evs) ev).server.srv.inShutdown = true ↔
          ev.isStop = true)) := by
  have hinv := Run_inv server c0 log evs
  have hinit : (runInit server c0 log).server.srv.inShutdown = false := hsrv
  have hquiet : (∀ ev ∈ evs, ev.isStop = false) →
      (Run server c0 log evs).server.srv.inShutdown = false := by
    intro hstop
    rw [Run, foldl_srv_quiet evs _ hstop]
    exact hsrv
  refine ⟨?_, ?_, ?_, ?_⟩
  · have h := foldl_sameListener evs (runInit server c0 log) (runInit server none log)
      (runInit_inv server c0 log) (runInit_inv server none log)
      ⟨rfl, rfl, rfl, rfl, rfl, Iff.rfl⟩
    obtain ⟨hs, hw, -, -, hcr, -⟩ := h
    exact ⟨hw, congrArg GrpcServer.srv hs, hcr⟩
  · intro hstop
    refine ⟨hquiet hstop, fun hmount => ?_⟩
    rw [Run, foldl_crashed_quiet evs _ (runInit_inv server c0 log)
      (runInit_mountable server c0 log hmount) hstop]
    rfl
  · intro hstop hfail v hret
    have hne : ∀ d, (Run server c0 log evs).worker ≠ WorkerPc.exited d :=
      foldl_not_exited evs (runInit server c0 log) (runInit_inv server c0 log) hstop hfail
        hinit (by intro d; simp [runInit])
    have halive := alive_of_started _ hinv v hret hne
    have hmain : (Run server c0 log evs).main = MainPc.returned v := by
      cases hm : (Run server c0 log evs).main <;> simp_all [RunState.result]
    refine ⟨(hinv.2.1 v hmain).1, (hinv.2.1 v hmain).2, fun _ => halive, ?_⟩
    intro evs2 hstop2 hfail2 hsched hlive
    rw [Run_append] at hlive ⊢
    refine ⟨worker_reaches_serving evs2 _ hinv hstop2 hfail2 (hquiet hstop)
      halive (le_trans (WorkerPc.rank_le_three _) hsched) hlive, ?_⟩
    rw [foldl_srv_quiet evs2 _ hstop2]
    exact hquiet hstop
  · intro hstop hlive ev
    exact step_inShutdown_iff _ ev hlive (hquiet hstop)

/-- Witness of C9: on the handle `New` returns, the context is cancelled before the
started goroutine has run, and `Run` returns; the goroutine, scheduled three times
afterwards, is in the accept loop, and the process has not crashed. -/
theorem cancellation_alone_never_stops_listener_witness :
    (New envPublic none idleService).server.srv.inShutdown = false ∧
      (Run (New envPublic none idleService).server none [] cancelEarly).result =
        some (some GoError.Canceled) ∧
      (Run (New envPublic none idleService).server none []
        (cancelEarly ++ [Event.worker, Event.worker, Event.worker])).worker =
        WorkerPc.serving ∧
      (Run (New envPublic none idleService).server none [] cancelEarly).crashed = false :=
  ⟨by decide, by decide,
    (((cancellation_alone_never_stops_listener (New envPublic none idleService).server none []
      cancelEarly (by decide)).2.2.1 (by decide) (by decide) (some GoError.Canceled)
      (by decide)).2.2.2 [Event.worker, Event.worker, Event.worker] (by decide) (by decide)
      (by decide) (by decide)).1,
    ((cancellation_alone_never_stops_listener (New envPublic none idleService).server none []
      cancelEarly (by decide)).2.1 (by decide)).2 (by decide)⟩

theorem scenario_second_Run_panics :
    (Run (New envPublic none idleService).server none [] startUp).worker =
        WorkerPc.serving ∧
      (Run (New envPublic none idleService).server none [] startUp).crashed = false ∧
      handlePanics (Run (New envPublic none idleService).server none [] startUp).server.mux
        (Run (New envPublic none idleService).server none [] startUp).server.path = true ∧
      (Run (Run (New envPublic none idleService).server none [] startUp).server none []
        [Event.main false, Event.worker]).crashed = true := by
  decide

theorem scenario_stop_after_cancel :
    (Run (New envPublic none idleService).server none [] cancelWhileServing).worker =
        WorkerPc.serving ∧
      (Run (New envPublic none idleService).server none [] cancelWhileServing).result =
        some (some GoError.Canceled) ∧
      (Run (New envPublic none idleService).server none []
        (cancelWhileServing ++ [Event.stop 1000 5 none])).worker =
        WorkerPc.exited (some GoError.ErrServerClosed) ∧
      (Run (New envPublic none idleService).server none []
        (cancelWhileServing ++ [Event.stop 1000 5 none])).server.srv.inShutdown = true := by
  decide

end grpcServer
